import Mathlib

/-!
Shallow embedding of the MIKE1D `ResultDataExtract.py` script
(command-line selector parsing, result-store query resolution, and
multi-format export) together with theorems checking the natural-language
specification of the repository against this embedding.

Conventions of the embedding:
* Python strings are Lean `String`; the Python string primitives used by
  the script (`lower`, `startswith`, `endswith`, `split` with a maxsplit
  bound, `replace`, `float`) are modelled on the underlying character
  lists.
* Python floats are modelled as exact rationals; the numeric literals the
  script manipulates (chainages, sentinel values) are exact in `Rat`.
* Python runtime faults that the script can actually raise on the control
  paths under study (NameError for an undefined variable, TypeError for
  iterating `None`, AttributeError for attribute access on `None`,
  IndexError and the .NET out-of-range errors for bad indexing) are made
  explicit with `Except PyErr`.
* Printing is modelled as an accumulated list of structured `Diag` values
  carrying exactly the data the script interpolates into each message.
* The external MIKE result store (`ResultData`, `ResultDataSearch`) is
  modelled as plain lists of nodes, reaches and catchments; the searcher
  lookups are exact-match lookups by id or name, and a lookup given a
  Python `None` id matches nothing.
-/

namespace ResultDataExtract

deriving instance DecidableEq for Except

/-- Exact subtraction of rationals through `mkRat`, so that concrete
evaluations reduce inside the kernel. -/
def ratSub (a b : ℚ) : ℚ := mkRat (a.num * b.den - b.num * a.den) (a.den * b.den)

/-- Python `abs` on a (rational-modelled) float, through `mkRat`. -/
def ratAbs (q : ℚ) : ℚ := mkRat q.num.natAbs q.den

/-! ## Python string primitives -/

/-- Lowercase a string character by character, as Python `str.lower` does
for the ASCII identifiers handled by the script. -/
def pyLower (s : String) : String :=
  String.mk (s.data.map Char.toLower)

/-- Python `str.startswith`, on character lists. -/
def pyStartsWith (s pat : String) : Bool :=
  List.isPrefixOf pat.data s.data

/-- Python `str.endswith`, via a reversed character-list check. -/
def pyEndsWith (s pat : String) : Bool :=
  List.isPrefixOf pat.data.reverse s.data.reverse

/-- Helper for Python `str.split(sep, maxsplit)`: `m` is the number of
splits still allowed; once it reaches zero the rest of the string is kept
in one final part, separators included. -/
def pySplitAux (c : Char) : List Char → Nat → List Char → List (List Char)
  | [], _, acc => [acc.reverse]
  | x :: xs, m, acc =>
    if x = c then
      match m with
      | 0 => pySplitAux c xs 0 (x :: acc)
      | Nat.succ m => acc.reverse :: pySplitAux c xs m []
    else pySplitAux c xs m (x :: acc)

/-- Python `str.split(sep, maxsplit)` for a one-character separator. -/
def pySplit (s : String) (c : Char) (maxsplit : Nat) : List String :=
  (pySplitAux c s.data maxsplit []).map String.mk

/-- Numeric value of a decimal digit character. -/
def digitVal (c : Char) : Option Nat :=
  if c.isDigit then some (c.toNat - 48) else none

/-- Read a run of leading decimal digits. -/
def readDigits : List Char → List Nat × List Char
  | [] => ([], [])
  | c :: cs =>
    match digitVal c with
    | some d =>
      let r := readDigits cs
      (d :: r.1, r.2)
    | none => ([], c :: cs)

/-- Assemble a digit list into a natural number. -/
def natOfDigits (ds : List Nat) : Nat :=
  ds.foldl (fun a d => a * 10 + d) 0

/-- Exponent tail of a Python float literal: optional sign, then digits
that must consume the rest of the input. -/
def pyFloatExp (cs : List Char) : Option Int :=
  let p : Bool × List Char :=
    match cs with
    | '+' :: t => (false, t)
    | '-' :: t => (true, t)
    | t => (false, t)
  let d := readDigits p.2
  if d.1.isEmpty ∨ ¬d.2.isEmpty then none
  else some (if p.1 then -(natOfDigits d.1 : Int) else (natOfDigits d.1 : Int))

/-- Assemble sign, integer digits, fraction digits and a decimal
exponent into an exact rational, using only kernel-reducible `mkRat`
and natural-number arithmetic. -/
def decimalValue (neg : Bool) (ip fp : List Nat) (ex : Int) : ℚ :=
  let m : Nat := natOfDigits ip * 10 ^ fp.length + natOfDigits fp
  let n : Int := if neg then -(m : Int) else (m : Int)
  if 0 ≤ ex then mkRat (n * (10 : Int) ^ ex.toNat) (10 ^ fp.length)
  else mkRat n (10 ^ fp.length * 10 ^ (-ex).toNat)

/-- Core of Python `float(...)` on finite decimal literals: optional
sign, integer digits, optional fraction, optional exponent.  The special
spellings `inf` and `nan` have no rational value and are outside the
model; no claim exercises them. -/
def pyFloatCore (cs : List Char) : Option ℚ :=
  let p : Bool × List Char :=
    match cs with
    | '+' :: t => (false, t)
    | '-' :: t => (true, t)
    | t => (false, t)
  let ip := readDigits p.2
  let fp : List Nat × List Char :=
    match ip.2 with
    | '.' :: t => readDigits t
    | t => ([], t)
  if ip.1.isEmpty ∧ fp.1.isEmpty then none
  else
    match fp.2 with
    | [] => some (decimalValue p.1 ip.1 fp.1 0)
    | e :: t =>
      if e = 'e' ∨ e = 'E' then
        match pyFloatExp t with
        | some ex => some (decimalValue p.1 ip.1 fp.1 ex)
        | none => none
      else none

/-- Python `str.strip` of surrounding whitespace, on character lists. -/
def pyStrip (s : String) : List Char :=
  ((s.data.dropWhile Char.isWhitespace).reverse.dropWhile Char.isWhitespace).reverse

/-- Python `float(value)` on a string, whitespace-stripped. -/
def pyFloat (s : String) : Option ℚ :=
  pyFloatCore (pyStrip s)

/-! ## Enums and parsed-argument data (`Constants`, `LocationType`,
`OutputFileType`, `ParsedArgument`) -/

/-- Sentinel `Constants.ALL_CHAINAGES = -999` from the script. -/
def ALL_CHAINAGES : ℚ := -999

/-- The three location kinds of the selector language. -/
inductive LocationType where
  | reach
  | node
  | catchment
deriving DecidableEq, Repr

/-- The string value of each `LocationType` constant in the script, which
also fixes the keyword length used to find the split character. -/
def LocationType.str : LocationType → String
  | .reach => "Reach"
  | .node => "Node"
  | .catchment => "Catchment"

/-- Output formats recognized by `ParseOutputFileName`. -/
inductive OutputFileType where
  | txt
  | csv
  | dfs0
  | all
deriving DecidableEq, Repr

/-- Python runtime faults reachable on the modelled control paths. -/
inductive PyErr where
  | nameError (name : String)
  | typeError
  | attributeError
  | indexError
deriving DecidableEq, Repr

/-- Structured rendering of each `print` the modelled code performs; the
constructor arguments are the values interpolated into the message. -/
inductive Diag where
  | couldNotHandleArgument (i : Nat) (argument : String)
  | argumentPartsError (lt : LocationType) (nParts : String) (i : Nat) (argument : String)
  | couldNotFindReach (reachId : Option String)
  | couldNotFindQuantityOnReach (quantityId reachId : Option String)
  | couldNotFindNode (nodeId : Option String)
  | couldNotFindQuantityInNode (quantityId nodeId : Option String)
  | couldNotFindCatchment (catchId : Option String)
  | couldNotFindQuantityInCatchment (quantityId catchId : Option String)
  | availableLocationsHeader (lt : LocationType)
  | availableQuantitiesHeader (lt : LocationType) (locationId : Option String)
  | locationLine (name : String)
  | quantityIdLine (quantityId : String)
deriving DecidableEq, Repr

/-- The fields of the script class `ParsedArgument`.  `quantityId` and
`locationId` are `Option String` because the script leaves them as Python
`None` on the discovery and failure paths. -/
structure ParsedArgument where
  locationType : LocationType
  quantityId : Option String
  locationId : Option String
  chainage : ℚ
  printAllLocations : Bool
  printQuantities : Bool
  cannotHandleArgument : Bool
deriving DecidableEq, Repr

/-! ## `CommandLineParser` -/

/-- Model of `CommandLineParser.GetPartsOfArgument`: the split character is read at
the position right after the location-type keyword and the argument is
split on it with `len(locationType) - 1` as the maxsplit bound. -/
def GetPartsOfArgument (argument : String) (locationType : LocationType) : List String :=
  let splitCharPosition := locationType.str.length
  if argument.length > splitCharPosition then
    let splitChar := argument.data.getD splitCharPosition ' '
    pySplit argument splitChar (splitCharPosition - 1)
  else []

/-- Model of `CommandLineParser.IsFloat`. -/
def IsFloat (value : String) : Bool :=
  (pyFloat value).isSome

/-- Final wildcard checks of `ParseLocation`: a dash locationId forces
`printAllLocations`, a dash quantityId forces `printQuantities`. -/
def applyDashChecks (pa : ParsedArgument) : ParsedArgument :=
  let pa := if pa.locationId = some "-" then { pa with printAllLocations := true } else pa
  if pa.quantityId = some "-" then { pa with printQuantities := true } else pa

/-- Model of `CommandLineParser.ParseLocation`.  The branch for a 4-part reach
argument whose 4th field is not numeric executes
`locationId = parts[2] + splitChar + parts[3]` in the script, but
`splitChar` is not a name in scope there (it is local to
`GetPartsOfArgument`), so Python raises `NameError`; the embedding returns
that error. -/
def ParseLocation (i : Nat) (argument : String) (locationType : LocationType)
    (hasChainage : Bool) : List Diag × Except PyErr ParsedArgument :=
  let parts := GetPartsOfArgument argument locationType
  let partsCount := parts.length
  if partsCount < 3 then
    ([], .ok (applyDashChecks
      ⟨locationType, none, none, ALL_CHAINAGES, true, false, false⟩))
  else if partsCount = 3 then
    ([], .ok (applyDashChecks
      ⟨locationType, some (parts.getD 1 ""), some (parts.getD 2 ""), ALL_CHAINAGES,
        false, false, false⟩))
  else if partsCount = 4 ∧ hasChainage then
    if IsFloat (parts.getD 3 "") then
      ([], .ok (applyDashChecks
        ⟨locationType, some (parts.getD 1 ""), some (parts.getD 2 ""),
          (pyFloat (parts.getD 3 "")).getD 0, false, false, false⟩))
    else
      ([], .error (.nameError "splitChar"))
  else
    ([Diag.argumentPartsError locationType (if hasChainage then "3 or 4" else "3") i argument],
      .ok (applyDashChecks
        ⟨locationType, none, none, ALL_CHAINAGES, false, false, true⟩))

/-- Model of `CommandLineParser.ParseOutputFileName`: four successive suffix tests
on the lowercased name, each overwriting the previous choice, with `txt`
as the initial default. -/
def ParseOutputFileName (outFileName : String) : OutputFileType :=
  let l := pyLower outFileName
  let t := OutputFileType.txt
  let t := if pyEndsWith l ".txt" then OutputFileType.txt else t
  let t := if pyEndsWith l ".csv" then OutputFileType.csv else t
  let t := if pyEndsWith l ".dfs0" then OutputFileType.dfs0 else t
  let t := if pyEndsWith l "-" then OutputFileType.all else t
  t

/-- One iteration of the keyword dispatch in `CommandLineParser.Parse`:
`none` means no keyword matched (the local `cannotHandleArgument` path). -/
def parseStep (i : Nat) (argument : String) :
    Option (List Diag × Except PyErr ParsedArgument) :=
  if pyStartsWith (pyLower argument) "reach" then
    some (ParseLocation i argument .reach true)
  else if pyStartsWith (pyLower argument) "node" then
    some (ParseLocation i argument .node false)
  else if pyStartsWith (pyLower argument) "catchment" then
    some (ParseLocation i argument .catchment false)
  else none

/-- Pair each element of a list with its position, starting at `n`. -/
def indexedFrom : Nat → List String → List (Nat × String)
  | _, [] => []
  | n, a :: as => (n, a) :: indexedFrom (n + 1) as

/-- The argument loop of `CommandLineParser.Parse`.  Components of the
result: the accumulated `parsedArguments` (a `none` entry is the Python
`None` appended for an unrecognized keyword), the final value of the
attribute `cannotHandleArgument` (which each iteration overwrites with its
local flag, so a parse failure inside `ParseLocation` leaves it `false`),
the printed diagnostics, and a Python error if `ParseLocation` raised. -/
def parseArgsLoop : List (Nat × String) →
    List (Option ParsedArgument) × Bool × List Diag × Option PyErr
  | [] => ([], false, [], none)
  | (i, a) :: rest =>
    match parseStep i a with
    | none => ([none], true, [Diag.couldNotHandleArgument i a], none)
    | some (lg, .error e) => ([], false, lg, some e)
    | some (lg, .ok pa) =>
      if pa.printAllLocations || pa.cannotHandleArgument then
        ([some pa], false, lg, none)
      else
        let r := parseArgsLoop rest
        (some pa :: r.1, r.2.1, lg ++ r.2.2.1, r.2.2.2)

/-! ## Result-store data model (external collaborator, modelled as data) -/

/-- Item-type groups of the MIKE enum `ItemTypeGroup`; `globalItem`
stands for any group other than the three the script special-cases. -/
inductive ItemTypeGroup where
  | reachItem
  | nodeItem
  | catchmentItem
  | globalItem
deriving DecidableEq, Repr

/-- A quantity-bearing data item of the store.  `values` is indexed
time step first, then element. -/
structure DataItem where
  quantityId : String
  itemTypeGroup : ItemTypeGroup
  numberWithinGroup : Nat
  indexList : List Nat
  numberOfElements : Nat
  values : List (List ℚ)
  id : String
deriving DecidableEq, Repr

/-- A reach: a name, grid-point chainages in order, and data items. -/
structure Reach where
  name : String
  gridPoints : List ℚ
  dataItems : List DataItem
deriving DecidableEq, Repr

/-- A node of the network. -/
structure NetworkNode where
  id : String
  dataItems : List DataItem
deriving DecidableEq, Repr

/-- A catchment. -/
structure Catchment where
  id : String
  dataItems : List DataItem
deriving DecidableEq, Repr

/-- The loaded result store (`ResultData`). -/
structure ResultData where
  nodes : List NetworkNode
  reaches : List Reach
  catchments : List Catchment
  numberOfTimeSteps : Nat
deriving DecidableEq, Repr

/-- The script class `DataEntry`: a data item (possibly Python `None`)
and an element index (`-1` is a live value on one code path). -/
structure DataEntry where
  dataItem : Option DataItem
  elementIndex : Int
deriving DecidableEq, Repr

/-- Model of `ResultDataSearch.FindReaches`: every reach whose name equals the
requested id; a Python `None` id matches nothing. -/
def FindReaches (rd : ResultData) (reachId : Option String) : List Reach :=
  match reachId with
  | none => []
  | some s => rd.reaches.filter (fun r => r.name = s)

/-- Model of `ResultDataSearch.FindNode`: first node with the requested id. -/
def FindNode (rd : ResultData) (nodeId : Option String) : Option NetworkNode :=
  match nodeId with
  | none => none
  | some s => rd.nodes.find? (fun n => n.id = s)

/-- Model of `ResultDataSearch.FindCatchment`: first catchment with the id. -/
def FindCatchment (rd : ResultData) (catchId : Option String) : Option Catchment :=
  match catchId with
  | none => none
  | some s => rd.catchments.find? (fun c => c.id = s)

/-- Case-insensitive ordinal string comparison
(`StringComparer.OrdinalIgnoreCase.Equals`). -/
def eqIgnoreCase (a b : String) : Bool :=
  pyLower a = pyLower b

/-- Model of `ResultFinder.FindQuantity`: first data item of the data set whose
quantity id matches case-insensitively; comparison with a Python `None`
id is false. -/
def FindQuantity (dataItems : List DataItem) (quantityId : Option String) : Option DataItem :=
  match quantityId with
  | none => none
  | some q => dataItems.find? (fun it => eqIgnoreCase it.quantityId q)

/-! ## `ResultFinder` query resolution -/

/-- Running state of the nearest-chainage scan in
`ResultFinder.FindReachQuantity`: minimum distance so far (started at the
literal `999999`), the item that produced it, and its element index. -/
structure NearestState where
  minDist : ℚ
  minDataItem : Option DataItem
  minElmtIndex : Int
deriving DecidableEq, Repr

/-- Inner loop of `FindReachQuantity` over the elements of one data item:
each element is mapped through the index list to a grid point and its
chainage distance is compared against the running minimum (strict
comparison, so the first minimizer encountered is kept). -/
def scanDataItem (item : DataItem) (gridPoints : List ℚ) (chainage : ℚ)
    (st : NearestState) : NearestState :=
  (List.range item.numberOfElements).foldl
    (fun st j =>
      let gpIdx := item.indexList.getD j 0
      let dist := ratAbs (ratSub (gridPoints.getD gpIdx 0) chainage)
      if dist < st.minDist then ⟨dist, some item, Int.ofNat j⟩ else st)
    st

/-- Model of `ResultFinder.FindReachQuantity`.  Faithful to the script, the
returned entry pairs the loop variable `dataItem` — the quantity lookup
of the **last** matching reach — with `minElmtIndex`, because the script
returns `dataItem` where its own `minDataItem` was computed. -/
def FindReachQuantity (rd : ResultData) (quantityId reachId : Option String)
    (chainage : ℚ) : List Diag × Option (List DataEntry) :=
  let reaches := FindReaches rd reachId
  if reaches.isEmpty then
    ([Diag.couldNotFindReach reachId], none)
  else
    let p := reaches.foldl
      (fun (p : NearestState × Option DataItem) reach =>
        match FindQuantity reach.dataItems quantityId with
        | none => (p.1, none)
        | some item => (scanDataItem item reach.gridPoints chainage p.1, some item))
      (⟨999999, none, -1⟩, none)
    let lg := if p.1.minDataItem.isNone
      then [Diag.couldNotFindQuantityOnReach quantityId reachId] else []
    (lg, some [⟨p.2, p.1.minElmtIndex⟩])

/-- Model of `ResultFinder.FindReachQuantityAllChainages`: append one entry per
element of the matching data item of every matching reach, in reach order
then element order; an empty result is reported but still returned. -/
def FindReachQuantityAllChainages (rd : ResultData) (quantityId reachId : Option String) :
    List Diag × Option (List DataEntry) :=
  let reaches := FindReaches rd reachId
  if reaches.isEmpty then
    ([Diag.couldNotFindReach reachId], none)
  else
    let dataEntries := reaches.foldl
      (fun acc reach =>
        match FindQuantity reach.dataItems quantityId with
        | none => acc
        | some item =>
          acc ++ (List.range item.numberOfElements).map
            (fun j => (⟨some item, Int.ofNat j⟩ : DataEntry)))
      []
    let lg := if dataEntries.isEmpty
      then [Diag.couldNotFindQuantityOnReach quantityId reachId] else []
    (lg, some dataEntries)

/-- Model of `ResultFinder.FindNodeQuantity`: a missing node returns Python `None`
(not an empty list); a missing quantity returns a one-entry list whose
data item is `None` (`ConvertDataItemElementToList` wraps whatever it is
given when `outputDataItem` is set, which is how `Main` runs it). -/
def FindNodeQuantity (rd : ResultData) (quantityId nodeId : Option String) :
    List Diag × Option (List DataEntry) :=
  match FindNode rd nodeId with
  | none => ([Diag.couldNotFindNode nodeId], none)
  | some nd =>
    match FindQuantity nd.dataItems quantityId with
    | none => ([Diag.couldNotFindQuantityInNode quantityId nodeId], some [⟨none, 0⟩])
    | some item => ([], some [⟨some item, 0⟩])

/-- Model of `ResultFinder.FindCatchmentQuantity`, same shape as the node case. -/
def FindCatchmentQuantity (rd : ResultData) (quantityId catchId : Option String) :
    List Diag × Option (List DataEntry) :=
  match FindCatchment rd catchId with
  | none => ([Diag.couldNotFindCatchment catchId], none)
  | some c =>
    match FindQuantity c.dataItems quantityId with
    | none => ([Diag.couldNotFindQuantityInCatchment quantityId catchId], some [⟨none, 0⟩])
    | some item => ([], some [⟨some item, 0⟩])

/-- Model of `ResultFinder.FindQuantityInLocation`: dispatch on location type,
with the `-999` sentinel selecting the all-chainages policy. -/
def FindQuantityInLocation (rd : ResultData) (locationType : LocationType)
    (quantityId locationId : Option String) (chainage : ℚ) :
    List Diag × Option (List DataEntry) :=
  match locationType with
  | .reach =>
    if chainage = ALL_CHAINAGES then
      FindReachQuantityAllChainages rd quantityId locationId
    else
      FindReachQuantity rd quantityId locationId chainage
  | .node => FindNodeQuantity rd quantityId locationId
  | .catchment => FindCatchmentQuantity rd quantityId locationId

/-- Model of `ResultFinder.PrintQuantities`.  For a reach the script indexes
`FindReaches(locationId)[0]`, which raises when no reach matches; for a
node or catchment a `None` data set silently returns with no output. -/
def PrintQuantities (rd : ResultData) (locationType : LocationType)
    (locationId : Option String) : List Diag × Except PyErr Unit :=
  match locationType with
  | .reach =>
    match FindReaches rd locationId with
    | [] => ([], .error .indexError)
    | r :: _ => (r.dataItems.map (fun it => Diag.quantityIdLine it.quantityId), .ok ())
  | .node =>
    match FindNode rd locationId with
    | none => ([], .ok ())
    | some nd => (nd.dataItems.map (fun it => Diag.quantityIdLine it.quantityId), .ok ())
  | .catchment =>
    match FindCatchment rd locationId with
    | none => ([], .ok ())
    | some c => (c.dataItems.map (fun it => Diag.quantityIdLine it.quantityId), .ok ())

/-- Model of `ResultFinder.PrintAllLocations`: listing lines for every location of
the requested type (names for reaches, ids for nodes and catchments). -/
def PrintAllLocations (rd : ResultData) (locationType : LocationType) : List Diag :=
  match locationType with
  | .reach => rd.reaches.map (fun r => Diag.locationLine r.name)
  | .node => rd.nodes.map (fun n => Diag.locationLine n.id)
  | .catchment => rd.catchments.map (fun c => Diag.locationLine c.id)

/-! ## Extractors -/

/-- Model of `Extractor.Create` together with `ExtractorAll.__init__`, abstracted
to the plan of which formats get written to which file names: the `all`
case derives each sibling name by replacing the literal `.-` with the
concrete extension (Python `str.replace`, every occurrence). -/
def ExtractorCreate (outFileType : OutputFileType) (outFileName : String) :
    List (OutputFileType × String) :=
  match outFileType with
  | .txt => [(.txt, outFileName)]
  | .csv => [(.csv, outFileName)]
  | .dfs0 => [(.dfs0, outFileName)]
  | .all =>
    [(.txt, outFileName.replace ".-" ".txt"),
     (.csv, outFileName.replace ".-" ".csv"),
     (.dfs0, outFileName.replace ".-" ".dfs0")]

/-- Model of `dataItem.GetValue(timeStepIndex, elementIndex)` for an entry, with
value `0` outside the stored table; the decimation theorems restrict to
well-formed entries so this totalization is never load-bearing. -/
def entryValue (e : DataEntry) (timeStepIndex : Nat) : ℚ :=
  match e.dataItem with
  | none => 0
  | some it => (it.values.getD timeStepIndex []).getD e.elementIndex.toNat 0

/-- Model of `ExtractorTxt.WriteDataItems`: one row per kept time step, holding
the time-step index and one value per entry; a step is skipped when its
index is not a multiple of `timeStepSkippingNumber`. -/
def writeRowsTxt (numberOfTimeSteps timeStepSkippingNumber : Nat)
    (outputData : List DataEntry) : List (Nat × List ℚ) :=
  (List.range numberOfTimeSteps).foldl
    (fun acc t =>
      if t % timeStepSkippingNumber ≠ 0 then acc
      else acc ++ [(t, outputData.map (fun e => entryValue e t))])
    []

/-- The class `ExtractorCsv` inherits `WriteDataItems` from `ExtractorTxt`
unchanged; only the column formats differ. -/
def writeRowsCsv (numberOfTimeSteps timeStepSkippingNumber : Nat)
    (outputData : List DataEntry) : List (Nat × List ℚ) :=
  writeRowsTxt numberOfTimeSteps timeStepSkippingNumber outputData

/-- Model of `ExtractorDfs0.WriteDataItems`: for each kept time step, one record
per entry is appended with `WriteItemTimeStepNext`; the same skipping test
guards the loop. -/
def writeRecordsDfs0 (numberOfTimeSteps timeStepSkippingNumber : Nat)
    (outputData : List DataEntry) : List (Nat × ℚ) :=
  (List.range numberOfTimeSteps).foldl
    (fun acc t =>
      if t % timeStepSkippingNumber ≠ 0 then acc
      else acc ++ outputData.map (fun e => (t, entryValue e t)))
    []

/-- A dfs0 channel name as synthesized by
`ExtractorDfs0.DefineDynamicDataItems`, kept structured: the kind tag,
the quantity id, the location name or id, and for reaches the grid-point
chainage (the script formats it with three decimals). -/
inductive ChannelName where
  | reachChannel (quantityId locationName : String) (chainage : ℚ)
  | nodeChannel (quantityId locationId : String)
  | catchmentChannel (quantityId locationId : String)
deriving DecidableEq, Repr

/-- Channel-name synthesis for one entry in
`ExtractorDfs0.DefineDynamicDataItems`.  The fallback branch for any
other item-type group interpolates `quantityId`, which is not a name in
scope in that method (the local is `quantity`), so Python raises
`NameError` there; out-of-range indexing raises as in the runtime
(Python `IndexError` for the location lists, the .NET indexer error for
`IndexList[elementIndex]`). -/
def channelNameOf (rd : ResultData) (e : DataEntry) : Except PyErr ChannelName :=
  match e.dataItem with
  | none => .error .attributeError
  | some it =>
    match it.itemTypeGroup with
    | .reachItem =>
      match rd.reaches.get? it.numberWithinGroup with
      | none => .error .indexError
      | some reach =>
        if 0 ≤ e.elementIndex ∧ e.elementIndex.toNat < it.indexList.length then
          match reach.gridPoints.get? (it.indexList.getD e.elementIndex.toNat 0) with
          | none => .error .indexError
          | some chainage => .ok (.reachChannel it.quantityId reach.name chainage)
        else .error .indexError
    | .nodeItem =>
      match rd.nodes.get? it.numberWithinGroup with
      | none => .error .indexError
      | some nd => .ok (.nodeChannel it.quantityId nd.id)
    | .catchmentItem =>
      match rd.catchments.get? it.numberWithinGroup with
      | none => .error .indexError
      | some c => .ok (.catchmentChannel it.quantityId c.id)
    | .globalItem => .error (.nameError "quantityId")

/-- Model of `ExtractorDfs0.DefineDynamicDataItems` over the entry list, stopping
at the first raised error as the Python loop does. -/
def DefineDynamicDataItems (rd : ResultData) : List DataEntry → Except PyErr (List ChannelName)
  | [] => .ok []
  | e :: rest =>
    match channelNameOf rd e with
    | .error err => .error err
    | .ok n =>
      match DefineDynamicDataItems rd rest with
      | .error err => .error err
      | .ok ns => .ok (n :: ns)

/-! ## `Main` -/

/-- Observable outcome of a run of `Main`. -/
inductive MainOutcome where
  | printedUsage
  | printedAllQuantities
  | cannotHandle
  | printedAllLocations (lt : LocationType)
  | printedQuantities (lt : LocationType) (locationId : Option String)
  | crashed (e : PyErr)
  | exported (fmt : OutputFileType) (fileName : String) (entries : List DataEntry)
deriving DecidableEq, Repr

/-- First loop of `Main` over the parsed arguments: the first argument
with a discovery flag short-circuits the run; a Python `None` entry would
fault on attribute access.  `none` means no discovery fired and the run
proceeds to resolution. -/
def discoveryScan (rd : ResultData) : List (Option ParsedArgument) →
    Option (List Diag × MainOutcome)
  | [] => none
  | none :: _ => some ([], .crashed .attributeError)
  | some p :: rest =>
    if p.printAllLocations then
      some (Diag.availableLocationsHeader p.locationType ::
              PrintAllLocations rd p.locationType,
            .printedAllLocations p.locationType)
    else if p.printQuantities then
      let r := PrintQuantities rd p.locationType p.locationId
      match r.2 with
      | .error e =>
        some (Diag.availableQuantitiesHeader p.locationType p.locationId :: r.1, .crashed e)
      | .ok _ =>
        some (Diag.availableQuantitiesHeader p.locationType p.locationId :: r.1,
              .printedQuantities p.locationType p.locationId)
    else discoveryScan rd rest

/-- Second loop of `Main`: resolve each parsed argument and extend
`outputData`; iterating the Python `None` returned on a missing location
raises `TypeError`, and a `None` parsed argument faults on attribute
access. -/
def resolveLoop (rd : ResultData) : List (Option ParsedArgument) →
    List Diag × Except PyErr (List DataEntry)
  | [] => ([], .ok [])
  | none :: _ => ([], .error .attributeError)
  | some p :: rest =>
    let r := FindQuantityInLocation rd p.locationType p.quantityId p.locationId p.chainage
    match r.2 with
    | none => (r.1, .error .typeError)
    | some es =>
      let r2 := resolveLoop rd rest
      (r.1 ++ r2.1,
        match r2.2 with
        | .error e => .error e
        | .ok es2 => .ok (es ++ es2))

/-- Tail of `Main` after parsing: discovery scan, then resolution, then
the export hand-off (the outcome records format, file name and resolved
entries; file writing itself is external plumbing). -/
def runQueries (rd : ResultData) (outFileType : OutputFileType) (outFileName : String)
    (pas : List (Option ParsedArgument)) : List Diag × MainOutcome :=
  match discoveryScan rd pas with
  | some r => r
  | none =>
    let r := resolveLoop rd pas
    match r.2 with
    | .error e => (r.1, .crashed e)
    | .ok entries => (r.1, .exported outFileType outFileName entries)

/-- Model of `Main(arguments)` over a pre-loaded store: usage for at most one
argument, the all-quantities listing for two or three, otherwise parse
(a `NameError` there crashes the whole run), honor the
`cannotHandleArgument` attribute, and run the two query loops. -/
def Main (rd : ResultData) (arguments : List String) : List Diag × MainOutcome :=
  if arguments.length ≤ 1 then ([], .printedUsage)
  else if arguments.length ≤ 3 then ([], .printedAllQuantities)
  else
    let outFileName := arguments.getD 2 ""
    let r := parseArgsLoop (indexedFrom 3 (arguments.drop 3))
    match r.2.2.2 with
    | some e => (r.2.2.1, .crashed e)
    | none =>
      if r.2.1 then (r.2.2.1, .cannotHandle)
      else
        let q := runQueries rd (ParseOutputFileName outFileName) outFileName r.1
        (r.2.2.1 ++ q.1, q.2)

/-! ## Derived predicates on parse steps (used to state the theorems) -/

/-- The argument parses without a raised error. -/
def stepOk (i : Nat) (a : String) : Bool :=
  match parseStep i a with
  | some (_, .ok _) => true
  | _ => false

/-- The argument parses cleanly with no discovery break and no failure
flag (a quantity-discovery flag is still allowed). -/
def stepCleanPrefix (i : Nat) (a : String) : Bool :=
  match parseStep i a with
  | some (lg, .ok pa) => lg.isEmpty && !pa.printAllLocations && !pa.cannotHandleArgument
  | _ => false

/-- The argument parses to a plain export query: no discovery flag of
either kind and no failure flag. -/
def stepPlainQuery (i : Nat) (a : String) : Bool :=
  match parseStep i a with
  | some (lg, .ok pa) =>
    lg.isEmpty && !pa.printAllLocations && !pa.printQuantities && !pa.cannotHandleArgument
  | _ => false

/-- The argument fails to parse in one of the two reported ways: no
location keyword matches, or the field count is wrong
(`cannotHandleArgument` set by `ParseLocation`). -/
def stepFails (i : Nat) (a : String) : Bool :=
  match parseStep i a with
  | none => true
  | some (_, .ok pa) => pa.cannotHandleArgument
  | some (_, .error _) => false

/-- The parsed argument produced for a successfully parsed selector. -/
def stepPa (i : Nat) (a : String) : Option ParsedArgument :=
  match parseStep i a with
  | some (_, .ok pa) => some pa
  | _ => none

/-- A diagnostic that reports the argument with index `i` and text `a`,
as the two parse-failure messages of the script do. -/
def diagReportsArgument (d : Diag) (i : Nat) (a : String) : Prop :=
  d = Diag.couldNotHandleArgument i a ∨
    ∃ lt np, d = Diag.argumentPartsError lt np i a

/-! ## Spec-side definitions (for refinement statements) -/

/-- The entries contributed by one matching reach under the
all-chainages policy: one entry per element of its matching data item,
in ascending element-index order (none if the reach lacks the
quantity). -/
def reachEntriesOf (quantityId : Option String) (reach : Reach) : List DataEntry :=
  match FindQuantity reach.dataItems quantityId with
  | none => []
  | some item =>
    (List.range item.numberOfElements).map (fun j => ⟨some item, Int.ofNat j⟩)

/-- The all-chainages policy exactly as the specification words it: for
every matching reach, for every element of its matching data item, one
resolved entry per element, in element-index order, iterating reaches in
the store order. -/
def specAllChainageEntries (rd : ResultData) (quantityId reachId : Option String) :
    List DataEntry :=
  (FindReaches rd reachId).flatMap (reachEntriesOf quantityId)

/-- Well-formedness of a resolved entry with respect to the store: the
data item is present and all the indices its dfs0 channel naming
dereferences are in range.  No constraint is placed on the item-type
group. -/
def entryWf (rd : ResultData) (e : DataEntry) : Bool :=
  match e.dataItem with
  | none => false
  | some it =>
    match it.itemTypeGroup with
    | .reachItem =>
      match rd.reaches.get? it.numberWithinGroup with
      | none => false
      | some reach =>
        decide (0 ≤ e.elementIndex) && decide (e.elementIndex.toNat < it.indexList.length)
          && decide (it.indexList.getD e.elementIndex.toNat 0 < reach.gridPoints.length)
    | .nodeItem => decide (it.numberWithinGroup < rd.nodes.length)
    | .catchmentItem => decide (it.numberWithinGroup < rd.catchments.length)
    | .globalItem => true

/-! ## Concrete instances used by the closed theorems and witnesses -/

/-- A water-level data item attached to node `N2`. -/
def itemWLN2 : DataItem := ⟨"WaterLevel", .nodeItem, 0, [], 1, [[5]], "n2item"⟩

/-- Store with the single node `N2`; node `N1` is absent. -/
def rdC1 : ResultData := ⟨[⟨"N2", [itemWLN2]⟩], [], [], 1⟩

/-- A batch of two node queries whose first names the missing node. -/
def argsC1 : List String :=
  ["script", "input.res1d", "out.txt", "node:WaterLevel:N1", "node:WaterLevel:N2"]

/-- Quantity `Q` on a reach with grid points at chainages 0, 50, 100. -/
def itemQA : DataItem := ⟨"Q", .reachItem, 0, [0, 1, 2], 3, [[1, 2, 3]], "A"⟩

/-- Quantity `Q` on a parallel reach with one grid point at 1000. -/
def itemQB : DataItem := ⟨"Q", .reachItem, 1, [0], 1, [[9]], "B"⟩

/-- First reach named `R`. -/
def reachRA : Reach := ⟨"R", [0, 50, 100], [itemQA]⟩

/-- Second reach also named `R`. -/
def reachRB : Reach := ⟨"R", [1000], [itemQB]⟩

/-- Store with two parallel reaches sharing the name `R`. -/
def rdC2 : ResultData := ⟨[], [reachRA, reachRB], [], 1⟩

/-- Store with the single reach `R` with grid points 0, 50, 100. -/
def rdSingleR : ResultData := ⟨[], [reachRA], [], 1⟩

/-- An entirely empty store. -/
def rdEmpty : ResultData := ⟨[], [], [], 1⟩

/-- Store with two nodes `N1` and `N2`, both carrying water level. -/
def rdC6 : ResultData := ⟨[⟨"N1", [itemWLN2]⟩, ⟨"N2", [itemWLN2]⟩], [], [], 1⟩

/-- The parsed argument the embedding produces for `node:-:N1`. -/
def paC6 : ParsedArgument := ⟨.node, some "-", some "N1", ALL_CHAINAGES, false, true, false⟩

/-- One resolved entry on the `N2` water-level item. -/
def entryWLN2 : DataEntry := ⟨some itemWLN2, 0⟩

/-! ## Theorems for the claims -/

/-- C1: evaluation of the code at the failing input.  In a batch of two
node queries whose first names the missing node `N1`,
`FindNodeQuantity` prints the diagnostic but returns Python `None`, and
`Main` then raises `TypeError` while iterating it, so the run aborts and
the second query (on the present node `N2`) is never resolved or
exported — contradicting the claim that the resolver returns an empty
sequence and the run continues to export the second query. -/
theorem C1_missing_node_crashes_batch :
    Main rdC1 argsC1 = ([Diag.couldNotFindNode (some "N1")], .crashed .typeError) := by
  decide

/-- C2: evaluation of the code at a failing input.  With two parallel
reaches named `R` (grid points 0, 50, 100 carrying `Q` as `itemQA`, and a
lone grid point at 1000 carrying `Q` as `itemQB`), the query at chainage
60 must, per the claim, select the element of `itemQA` at chainage 50
(element index 1).  The code instead pairs the minimizing element index 1
with the quantity item of the last matching reach, `itemQB`, which has
only one element — the script returns the loop variable `dataItem` where
its own `minDataItem` was computed. -/
theorem C2_nearest_chainage_wrong_item :
    FindReachQuantity rdC2 (some "Q") (some "R") 60
        = ([], some [⟨some itemQB, 1⟩]) ∧
      itemQB ≠ itemQA ∧ itemQB.numberOfElements = 1 := by
  decide

/-- C3: evaluation of the code at the failing input.  Parsing
`reach:Q:ID:NOTANUMBER` reaches the non-numeric-chainage branch, whose
recombination statement reads the name `splitChar`, which is not in scope
in `ParseLocation`; Python raises `NameError` instead of producing
locationId `ID:NOTANUMBER` with the all-chainages sentinel. -/
theorem C3_recombination_raises_name_error :
    IsFloat "NOTANUMBER" = false ∧
      ParseLocation 3 "reach:Q:ID:NOTANUMBER" .reach true
        = ([], .error (.nameError "splitChar")) := by
  decide

/-- C5 counterexample: the claim says any output name other than the
three known extensions selects all three formats, but `out.dat` selects
plain text, not the all-formats mode. -/
theorem C5_counterexample_other_extension :
    ParseOutputFileName "out.dat" = OutputFileType.txt ∧
      OutputFileType.txt ≠ OutputFileType.all := by
  decide

/-- C9 counterexample: a quantity-discovery query naming a node id absent
from the store is a not-found condition that produces no diagnostic at
all — `PrintQuantities` returns silently — so not every not-found
condition is surfaced. -/
theorem C9_counterexample_silent_discovery :
    FindNode rdEmpty (some "X") = none ∧
      PrintQuantities rdEmpty .node (some "X") = ([], .ok ()) := by
  decide

/-! ### Generic fold lemmas -/

/-- Two pointwise-equal fold bodies fold equally. -/
theorem foldlCongr {α β : Type} (f g : β → α → β) (h : ∀ b a, f b a = g b a)
    (l : List α) (b : β) : l.foldl f b = l.foldl g b := by
  induction l generalizing b with
  | nil => rfl
  | cons x xs ih => rw [List.foldl_cons, List.foldl_cons, h, ih]

/-- Folding a plain accumulate body is appending the flat map. -/
theorem foldl_append_flatMap {α β : Type} (g : α → List β) (l : List α) (acc : List β) :
    l.foldl (fun a x => a ++ g x) acc = acc ++ l.flatMap g := by
  induction l generalizing acc with
  | nil => simp
  | cons x xs ih => simp [ih]

/-- Folding an accumulate-or-skip body is appending the flat map in
which skipped elements contribute nothing. -/
theorem foldl_skip_append {α β : Type} (p : α → Prop) [DecidablePred p] (g : α → List β)
    (l : List α) (acc : List β) :
    l.foldl (fun a x => if p x then a else a ++ g x) acc
      = acc ++ l.flatMap (fun x => if p x then [] else g x) := by
  induction l generalizing acc with
  | nil => simp
  | cons x xs ih => by_cases h : p x <;> simp [h, ih]

/-- C7: in every exporter a time step is written exactly when its
zero-based index is a multiple of the stride: the text rows, the CSV rows
(inherited unchanged from the text extractor) and the dfs0 records all
contain time step `t` precisely when `t` is in range and `t` divides
evenly by the stride. -/
theorem C7_decimation_all_formats (n N : Nat) (entries : List DataEntry) (t : Nat)
    (_hN : 1 ≤ N) (hne : entries ≠ []) :
    ((∃ vs, (t, vs) ∈ writeRowsTxt n N entries) ↔ t < n ∧ t % N = 0) ∧
    ((∃ vs, (t, vs) ∈ writeRowsCsv n N entries) ↔ t < n ∧ t % N = 0) ∧
    ((∃ v, (t, v) ∈ writeRecordsDfs0 n N entries) ↔ t < n ∧ t % N = 0) := by
  have htxt : writeRowsTxt n N entries
      = (List.range n).flatMap
          (fun x => if x % N ≠ 0 then [] else [(x, entries.map (fun e => entryValue e x))]) := by
    unfold writeRowsTxt
    rw [foldl_skip_append (fun x => x % N ≠ 0)
      (fun x => [(x, entries.map (fun e => entryValue e x))])]
    simp
  have hdfs : writeRecordsDfs0 n N entries
      = (List.range n).flatMap
          (fun x => if x % N ≠ 0 then [] else entries.map (fun e => (x, entryValue e x))) := by
    unfold writeRecordsDfs0
    rw [foldl_skip_append (fun x => x % N ≠ 0)
      (fun x => entries.map (fun e => (x, entryValue e x)))]
    simp
  have hrow : ∀ vs, ((t, vs) ∈ writeRowsTxt n N entries) ↔
      (t < n ∧ t % N = 0 ∧ vs = entries.map (fun e => entryValue e t)) := by
    intro vs
    rw [htxt]
    simp only [List.mem_flatMap, List.mem_range]
    constructor
    · rintro ⟨x, hx, hmem⟩
      by_cases hmod : x % N ≠ 0
      · simp [hmod] at hmem
      · simp only [hmod, if_false] at hmem
        simp only [List.mem_singleton, Prod.mk.injEq] at hmem
        obtain ⟨rfl, rfl⟩ := hmem
        exact ⟨hx, by simpa using hmod, rfl⟩
    · rintro ⟨hx, hmod, rfl⟩
      exact ⟨t, hx, by simp [hmod]⟩
  refine ⟨?_, ?_, ?_⟩
  · constructor
    · rintro ⟨vs, hvs⟩
      exact ⟨((hrow vs).mp hvs).1, ((hrow vs).mp hvs).2.1⟩
    · rintro ⟨hx, hmod⟩
      exact ⟨entries.map (fun e => entryValue e t), (hrow _).mpr ⟨hx, hmod, rfl⟩⟩
  · unfold writeRowsCsv
    constructor
    · rintro ⟨vs, hvs⟩
      exact ⟨((hrow vs).mp hvs).1, ((hrow vs).mp hvs).2.1⟩
    · rintro ⟨hx, hmod⟩
      exact ⟨entries.map (fun e => entryValue e t), (hrow _).mpr ⟨hx, hmod, rfl⟩⟩
  · rw [hdfs]
    constructor
    · rintro ⟨v, hv⟩
      simp only [List.mem_flatMap, List.mem_range] at hv
      obtain ⟨x, hx, hmem⟩ := hv
      by_cases hmod : x % N ≠ 0
      · simp [hmod] at hmem
      · simp only [hmod, if_false, List.mem_map, Prod.mk.injEq] at hmem
        obtain ⟨e, _, rfl, _⟩ := hmem
        exact ⟨hx, by simpa using hmod⟩
    · rintro ⟨hx, hmod⟩
      cases entries with
      | nil => exact absurd rfl hne
      | cons e es =>
        refine ⟨entryValue e t, ?_⟩
        simp only [List.mem_flatMap, List.mem_range]
        refine ⟨t, hx, ?_⟩
        simp [hmod]

/-- C7 witness: with stride 60 over 180 time steps, time step 60 is
exported in the text format. -/
theorem C7_decimation_witness :
    ∃ vs, (60, vs) ∈ writeRowsTxt 180 60 [entryWLN2] :=
  ((C7_decimation_all_formats 180 60 [entryWLN2] 60 (by decide) (by decide)).1).mpr
    (by decide)

/-- C8: for a reach query with the all-chainages sentinel, when some
reach matches, the resolver returns exactly the entry list described by
the specification: per matching reach in store order, one entry per
element of its matching data item in ascending element-index order. -/
theorem C8_all_chainages_refines_spec (rd : ResultData) (quantityId reachId : Option String)
    (h : FindReaches rd reachId ≠ []) :
    (FindReachQuantityAllChainages rd quantityId reachId).2
      = some (specAllChainageEntries rd quantityId reachId) := by
  have hne : (FindReaches rd reachId).isEmpty = false := by
    cases hfr : FindReaches rd reachId with
    | nil => exact absurd hfr h
    | cons a l => rfl
  unfold FindReachQuantityAllChainages specAllChainageEntries
  simp only [hne, Bool.false_eq_true, if_false]
  have hbody : (FindReaches rd reachId).foldl
      (fun acc reach =>
        match FindQuantity reach.dataItems quantityId with
        | none => acc
        | some item =>
          acc ++ (List.range item.numberOfElements).map
            (fun j => (⟨some item, Int.ofNat j⟩ : DataEntry)))
      []
    = (FindReaches rd reachId).flatMap (reachEntriesOf quantityId) := by
    rw [foldlCongr _
      (fun acc reach => acc ++ reachEntriesOf quantityId reach)
      (fun acc reach => by
        cases hq : FindQuantity reach.dataItems quantityId <;>
          simp [reachEntriesOf, hq])]
    rw [foldl_append_flatMap]
    simp
  exact congrArg some hbody

/-- C8 witness: on the single reach `R` with grid points at 0, 50 and
100 all carrying `Q`, the all-chainages query returns the three entries
in ascending element order. -/
theorem C8_all_chainages_witness :
    (FindReachQuantityAllChainages rdSingleR (some "Q") (some "R")).2
      = some [⟨some itemQA, 0⟩, ⟨some itemQA, 1⟩, ⟨some itemQA, 2⟩] :=
  (C8_all_chainages_refines_spec rdSingleR (some "Q") (some "R") (by decide)).trans
    (by decide)

/-- A fold body that is pointwise equal to another on the members of the
list folds equally. -/
theorem foldlCongrMem {α β : Type} (f g : β → α → β) (l : List α)
    (h : ∀ b, ∀ a ∈ l, f b a = g b a) (b : β) : l.foldl f b = l.foldl g b := by
  induction l generalizing b with
  | nil => rfl
  | cons x xs ih =>
    rw [List.foldl_cons, List.foldl_cons, h b x (by simp)]
    exact ih (fun b2 a ha => h b2 a (by simp [ha])) _

/-- Folding a body that keeps only the first component fixed preserves
the first component. -/
theorem foldl_fst_const {α β γ : Type} (l : List α) (p : β × γ) (z : γ) :
    (l.foldl (fun (p : β × γ) _ => (p.1, z)) p).1 = p.1 := by
  induction l generalizing p with
  | nil => rfl
  | cons x xs ih =>
    rw [List.foldl_cons]
    exact ih (p.1, z)

/-- A flat map whose function vanishes on every member is empty. -/
theorem flatMap_nil_of_forall {α β : Type} (f : α → List β) (l : List α)
    (h : ∀ x ∈ l, f x = []) : l.flatMap f = [] := by
  induction l with
  | nil => rfl
  | cons x xs ih =>
    rw [List.flatMap_cons, h x (by simp), ih (fun z hz => h z (by simp [hz]))]
    rfl

/-- C9 amended: not-found conditions met during query resolution —
a missing reach, node or catchment, and a missing quantity on a found
location for every location kind — are surfaced as diagnostics
identifying the missing id or quantity, but a quantity-discovery query
naming an absent location id produces no such diagnostic:
`PrintQuantities` silently returns for nodes and catchments and raises
an index error for reaches. -/
theorem C9_notfound_diagnostics_amended (rd : ResultData) (q loc : Option String) :
    (FindNode rd loc = none →
      Diag.couldNotFindNode loc ∈ (FindNodeQuantity rd q loc).1) ∧
    (∀ nd, FindNode rd loc = some nd → FindQuantity nd.dataItems q = none →
      Diag.couldNotFindQuantityInNode q loc ∈ (FindNodeQuantity rd q loc).1) ∧
    (FindCatchment rd loc = none →
      Diag.couldNotFindCatchment loc ∈ (FindCatchmentQuantity rd q loc).1) ∧
    (∀ cc, FindCatchment rd loc = some cc → FindQuantity cc.dataItems q = none →
      Diag.couldNotFindQuantityInCatchment q loc ∈ (FindCatchmentQuantity rd q loc).1) ∧
    (FindReaches rd loc = [] →
      Diag.couldNotFindReach loc ∈ (FindReachQuantityAllChainages rd q loc).1) ∧
    (FindReaches rd loc ≠ [] →
      (∀ r ∈ FindReaches rd loc, FindQuantity r.dataItems q = none) →
      Diag.couldNotFindQuantityOnReach q loc ∈ (FindReachQuantityAllChainages rd q loc).1) ∧
    (∀ c : ℚ, FindReaches rd loc = [] →
      Diag.couldNotFindReach loc ∈ (FindReachQuantity rd q loc c).1) ∧
    (∀ c : ℚ, FindReaches rd loc ≠ [] →
      (∀ r ∈ FindReaches rd loc, FindQuantity r.dataItems q = none) →
      Diag.couldNotFindQuantityOnReach q loc ∈ (FindReachQuantity rd q loc c).1) ∧
    (FindNode rd loc = none → PrintQuantities rd .node loc = ([], .ok ())) ∧
    (FindCatchment rd loc = none → PrintQuantities rd .catchment loc = ([], .ok ())) ∧
    (FindReaches rd loc = [] → (PrintQuantities rd .reach loc).2 = .error .indexError) := by
  refine ⟨?_, ?_, ?_, ?_, ?_, ?_, ?_, ?_, ?_, ?_, ?_⟩
  · intro h
    simp [FindNodeQuantity, h]
  · intro nd hnd hq
    simp [FindNodeQuantity, hnd, hq]
  · intro h
    simp [FindCatchmentQuantity, h]
  · intro cc hcc hq
    simp [FindCatchmentQuantity, hcc, hq]
  · intro h
    simp [FindReachQuantityAllChainages, h]
  · intro hne hq
    have hisE : (FindReaches rd loc).isEmpty = false := by
      cases hfr : FindReaches rd loc with
      | nil => exact absurd hfr hne
      | cons x xs => rfl
    unfold FindReachQuantityAllChainages
    simp only [hisE, Bool.false_eq_true, if_false]
    rw [foldlCongr _ (fun acc reach => acc ++ reachEntriesOf q reach)
          (fun acc reach => by
            cases hq2 : FindQuantity reach.dataItems q <;> simp [reachEntriesOf, hq2]),
        foldl_append_flatMap,
        flatMap_nil_of_forall (reachEntriesOf q) (FindReaches rd loc)
          (fun r hr => by simp [reachEntriesOf, hq r hr])]
    simp
  · intro c h
    simp [FindReachQuantity, h]
  · intro c hne hq
    have hisE : (FindReaches rd loc).isEmpty = false := by
      cases hfr : FindReaches rd loc with
      | nil => exact absurd hfr hne
      | cons x xs => rfl
    unfold FindReachQuantity
    simp only [hisE, Bool.false_eq_true, if_false]
    rw [foldlCongrMem _
          (fun (p : NearestState × Option DataItem) (_ : Reach) =>
            (p.1, (none : Option DataItem)))
          _ (fun p reach hr => by simp [hq reach hr]),
        foldl_fst_const]
    simp
  · intro h
    simp [PrintQuantities, h]
  · intro h
    simp [PrintQuantities, h]
  · intro h
    simp [PrintQuantities, h]

/-- C9 witness for the amended statement: on the empty store the
resolver reports the missing node `Y` while the discovery path stays
silent for it, and on the single reach `R` the missing quantity `W` is
reported by the all-chainages resolver. -/
theorem C9_notfound_witness :
    Diag.couldNotFindNode (some "Y") ∈
        (FindNodeQuantity rdEmpty (some "Q") (some "Y")).1 ∧
      PrintQuantities rdEmpty .node (some "Y") = ([], .ok ()) ∧
      Diag.couldNotFindQuantityOnReach (some "W") (some "R") ∈
        (FindReachQuantityAllChainages rdSingleR (some "W") (some "R")).1 :=
  ⟨(C9_notfound_diagnostics_amended rdEmpty (some "Q") (some "Y")).1 (by decide),
    (C9_notfound_diagnostics_amended rdEmpty (some "Q")
      (some "Y")).2.2.2.2.2.2.2.2.1 (by decide),
    (C9_notfound_diagnostics_amended rdSingleR (some "W")
      (some "R")).2.2.2.2.2.1 (by decide) (by decide)⟩

/-- The channel-name synthesis for one well-formed entry succeeds exactly
when its item-type group is one of the three the script handles. -/
theorem channelNameOf_ok_iff (rd : ResultData) (e : DataEntry)
    (h : entryWf rd e = true) :
    (∃ n, channelNameOf rd e = .ok n) ↔
      e.dataItem.map DataItem.itemTypeGroup ≠ some .globalItem := by
  cases hd : e.dataItem with
  | none => simp [entryWf, hd] at h
  | some it =>
    simp only [entryWf, hd] at h
    simp only [channelNameOf, hd, Option.map_some]
    cases hg : it.itemTypeGroup with
    | reachItem =>
      simp only [hg] at h ⊢
      cases hr : rd.reaches.get? it.numberWithinGroup with
      | none => rw [hr] at h; simp at h
      | some reach =>
        simp only [hr, Bool.and_eq_true, decide_eq_true_eq] at h
        obtain ⟨⟨h0, h1⟩, h2⟩ := h
        have hgp : reach.gridPoints.get? (it.indexList.getD e.elementIndex.toNat 0)
            = some (reach.gridPoints.get ⟨it.indexList.getD e.elementIndex.toNat 0, h2⟩) :=
          List.get?_eq_get h2
        simp only [hr]
        rw [if_pos (And.intro h0 h1)]
        simp only [hgp]
        simp [hg]
    | nodeItem =>
      simp only [hg, decide_eq_true_eq] at h ⊢
      have hn : rd.nodes.get? it.numberWithinGroup
          = some (rd.nodes.get ⟨it.numberWithinGroup, h⟩) := List.get?_eq_get h
      simp only [hn]
      simp [hg]
    | catchmentItem =>
      simp only [hg, decide_eq_true_eq] at h ⊢
      have hc : rd.catchments.get? it.numberWithinGroup
          = some (rd.catchments.get ⟨it.numberWithinGroup, h⟩) := List.get?_eq_get h
      simp only [hc]
      simp [hg]
    | globalItem =>
      simp [hg]

/-- C10: over well-formed entries (data item present, all dereferenced
indices in range, no constraint on the group), the dfs0 channel-name
synthesis succeeds — producing the structured
kind/quantity/location(/chainage) names — exactly when every entry
belongs to one of the three known item-type groups; any other group hits
the fallback branch, which references the undefined name `quantityId`
and raises. -/
theorem C10_channel_names_total_iff_known_groups (rd : ResultData)
    (entries : List DataEntry) (h : ∀ e ∈ entries, entryWf rd e = true) :
    (∃ ns, DefineDynamicDataItems rd entries = .ok ns) ↔
      ∀ e ∈ entries, e.dataItem.map DataItem.itemTypeGroup ≠ some .globalItem := by
  induction entries with
  | nil => simp [DefineDynamicDataItems]
  | cons e rest ih =>
    have he : entryWf rd e = true := h e (by simp)
    have hrest := ih (fun x hx => h x (by simp [hx]))
    unfold DefineDynamicDataItems
    constructor
    · rintro ⟨ns, hns⟩
      intro x hx
      cases hc : channelNameOf rd e with
      | error err => rw [hc] at hns; exact absurd hns (by simp)
      | ok n =>
        rw [hc] at hns
        cases hrec : DefineDynamicDataItems rd rest with
        | error err => rw [hrec] at hns; exact absurd hns (by simp)
        | ok ns2 =>
          rcases List.mem_cons.mp hx with rfl | hx2
          · exact (channelNameOf_ok_iff rd x he).mp ⟨n, hc⟩
          · exact hrest.mp ⟨ns2, hrec⟩ x hx2
    · intro hall
      obtain ⟨n, hn⟩ := (channelNameOf_ok_iff rd e he).mpr (hall e (by simp))
      obtain ⟨ns2, hns2⟩ := hrest.mpr (fun x hx => hall x (by simp [hx]))
      exact ⟨n :: ns2, by rw [hn, hns2]⟩

/-- C10 witness: a single well-formed node entry yields a channel-name
list. -/
theorem C10_channel_names_witness :
    ∃ ns, DefineDynamicDataItems rdC1 [entryWLN2] = .ok ns :=
  (C10_channel_names_total_iff_known_groups rdC1 [entryWLN2] (by decide)).mpr (by decide)

/-! ### Suffix exclusivity, for the output-format cascade -/

/-- A nonempty list-prefix check pins down the head of the checked
list. -/
theorem isPrefixOf_head {c : Char} {l x : List Char}
    (h : List.isPrefixOf (c :: l) x = true) : x.head? = some c := by
  obtain ⟨t, ht⟩ := List.isPrefixOf_iff_prefix.mp h
  subst ht
  rfl

/-- A string ending in a nonempty pattern fixes its final character
(read as the head of the reversed character list). -/
theorem pyEndsWith_head (s pat : String) (c : Char)
    (hp : pat.data.reverse.head? = some c) (h : pyEndsWith s pat = true) :
    s.data.reverse.head? = some c := by
  cases hrev : pat.data.reverse with
  | nil => rw [hrev] at hp; exact absurd hp (by simp)
  | cons c2 t =>
    rw [hrev] at hp
    have hc2 : c2 = c := by simpa using hp
    subst hc2
    unfold pyEndsWith at h
    rw [hrev] at h
    exact isPrefixOf_head h

/-- Two suffix patterns with different final characters cannot both
match. -/
theorem pyEndsWith_excl (s pat1 pat2 : String) (c1 c2 : Char)
    (h1p : pat1.data.reverse.head? = some c1) (h2p : pat2.data.reverse.head? = some c2)
    (hc : c1 ≠ c2) (h1 : pyEndsWith s pat1 = true) : pyEndsWith s pat2 = false := by
  cases h2 : pyEndsWith s pat2 with
  | false => rfl
  | true =>
    have e1 := pyEndsWith_head s pat1 c1 h1p h1
    have e2 := pyEndsWith_head s pat2 c2 h2p h2
    rw [e1] at e2
    exact absurd (Option.some.inj e2) hc

/-- C5 amended: the output-format choice is by file-name suffix, with a
trailing dash (the explicit all-formats marker) selecting all three
formats and the sibling names derived by substituting the concrete
extensions for `.-`; a name matching none of the four suffixes defaults
to text rather than selecting all three. -/
theorem C5_output_format_amended (s : String) :
    (pyEndsWith (pyLower s) ".txt" = true → ParseOutputFileName s = .txt) ∧
    (pyEndsWith (pyLower s) ".csv" = true → ParseOutputFileName s = .csv) ∧
    (pyEndsWith (pyLower s) ".dfs0" = true → ParseOutputFileName s = .dfs0) ∧
    (pyEndsWith (pyLower s) "-" = true → ParseOutputFileName s = .all) ∧
    (pyEndsWith (pyLower s) ".txt" = false → pyEndsWith (pyLower s) ".csv" = false →
      pyEndsWith (pyLower s) ".dfs0" = false → pyEndsWith (pyLower s) "-" = false →
      ParseOutputFileName s = .txt) ∧
    ExtractorCreate .all s =
      [(.txt, s.replace ".-" ".txt"), (.csv, s.replace ".-" ".csv"),
        (.dfs0, s.replace ".-" ".dfs0")] := by
  refine ⟨?_, ?_, ?_, ?_, ?_, rfl⟩
  · intro h
    have hcsv := pyEndsWith_excl (pyLower s) ".txt" ".csv" 't' 'v'
      (by decide) (by decide) (by decide) h
    have hdfs := pyEndsWith_excl (pyLower s) ".txt" ".dfs0" 't' '0'
      (by decide) (by decide) (by decide) h
    have hall := pyEndsWith_excl (pyLower s) ".txt" "-" 't' '-'
      (by decide) (by decide) (by decide) h
    simp [ParseOutputFileName, h, hcsv, hdfs, hall]
  · intro h
    have hdfs := pyEndsWith_excl (pyLower s) ".csv" ".dfs0" 'v' '0'
      (by decide) (by decide) (by decide) h
    have hall := pyEndsWith_excl (pyLower s) ".csv" "-" 'v' '-'
      (by decide) (by decide) (by decide) h
    simp [ParseOutputFileName, h, hdfs, hall]
  · intro h
    have hall := pyEndsWith_excl (pyLower s) ".dfs0" "-" '0' '-'
      (by decide) (by decide) (by decide) h
    simp [ParseOutputFileName, h, hall]
  · intro h
    simp [ParseOutputFileName, h]
  · intro h1 h2 h3 h4
    simp [ParseOutputFileName, h1, h2, h3, h4]

/-- C5 witness for the amended statement: a name with the trailing dash
marker selects all three formats with substituted extensions, and a
`.csv` name selects CSV. -/
theorem C5_output_format_witness :
    ParseOutputFileName "out.-" = .all ∧ ParseOutputFileName "x.csv" = .csv ∧
      ExtractorCreate .all "out.-" =
        [(.txt, "out.-".replace ".-" ".txt"), (.csv, "out.-".replace ".-" ".csv"),
          (.dfs0, "out.-".replace ".-" ".dfs0")] :=
  ⟨(C5_output_format_amended "out.-").2.2.2.1 (by decide),
    (C5_output_format_amended "x.csv").2.1 (by decide),
    (C5_output_format_amended "out.-").2.2.2.2.2⟩

/-! ### Characterization lemmas for the parser -/

/-- The update `applyDashChecks` keeps the location type. -/
theorem applyDash_locationType (pa : ParsedArgument) :
    (applyDashChecks pa).locationType = pa.locationType := by
  unfold applyDashChecks
  by_cases h1 : pa.locationId = some "-" <;> by_cases h2 : pa.quantityId = some "-" <;>
    simp [h1, h2]

/-- The update `applyDashChecks` keeps the quantity id. -/
theorem applyDash_quantityId (pa : ParsedArgument) :
    (applyDashChecks pa).quantityId = pa.quantityId := by
  unfold applyDashChecks
  by_cases h1 : pa.locationId = some "-" <;> by_cases h2 : pa.quantityId = some "-" <;>
    simp [h1, h2]

/-- The update `applyDashChecks` keeps the location id. -/
theorem applyDash_locationId (pa : ParsedArgument) :
    (applyDashChecks pa).locationId = pa.locationId := by
  unfold applyDashChecks
  by_cases h1 : pa.locationId = some "-" <;> by_cases h2 : pa.quantityId = some "-" <;>
    simp [h1, h2]

/-- The update `applyDashChecks` keeps the chainage. -/
theorem applyDash_chainage (pa : ParsedArgument) :
    (applyDashChecks pa).chainage = pa.chainage := by
  unfold applyDashChecks
  by_cases h1 : pa.locationId = some "-" <;> by_cases h2 : pa.quantityId = some "-" <;>
    simp [h1, h2]

/-- The update `applyDashChecks` keeps the failure flag. -/
theorem applyDash_cannotHandle (pa : ParsedArgument) :
    (applyDashChecks pa).cannotHandleArgument = pa.cannotHandleArgument := by
  unfold applyDashChecks
  by_cases h1 : pa.locationId = some "-" <;> by_cases h2 : pa.quantityId = some "-" <;>
    simp [h1, h2]

/-- The update `applyDashChecks` raises `printAllLocations` exactly for the dash
location id. -/
theorem applyDash_printAll (pa : ParsedArgument) :
    (applyDashChecks pa).printAllLocations
      = (pa.printAllLocations || decide (pa.locationId = some "-")) := by
  unfold applyDashChecks
  by_cases h1 : pa.locationId = some "-" <;> by_cases h2 : pa.quantityId = some "-" <;>
    simp [h1, h2]

/-- The update `applyDashChecks` raises `printQuantities` exactly for the dash
quantity id. -/
theorem applyDash_printQ (pa : ParsedArgument) :
    (applyDashChecks pa).printQuantities
      = (pa.printQuantities || decide (pa.quantityId = some "-")) := by
  unfold applyDashChecks
  by_cases h1 : pa.locationId = some "-" <;> by_cases h2 : pa.quantityId = some "-" <;>
    simp [h1, h2]

/-- A successfully parsed argument with the failure flag set comes from
the wrong-field-count branch: the diagnostic carries the location type,
the expected part count, the argument index and the argument text, and
the ids and discovery flags are all cleared. -/
theorem parseLocation_cannotHandle {i : Nat} {a : String} {lt : LocationType}
    {hc : Bool} {lg : List Diag} {pa : ParsedArgument}
    (h : ParseLocation i a lt hc = (lg, .ok pa))
    (hch : pa.cannotHandleArgument = true) :
    lg = [Diag.argumentPartsError lt (if hc then "3 or 4" else "3") i a] ∧
    pa.quantityId = none ∧ pa.locationId = none ∧
    pa.printAllLocations = false ∧ pa.printQuantities = false := by
  unfold ParseLocation at h
  dsimp only at h
  split_ifs at h <;>
    (simp only [Prod.mk.injEq] at h
     obtain ⟨hlg, hpa⟩ := h
     first
       | exact Except.noConfusion hpa
       | (have hpa2 := Except.ok.inj hpa
          subst hlg
          subst hpa2
          simp_all [applyDash_cannotHandle, applyDash_quantityId, applyDash_locationId,
            applyDash_printAll, applyDash_printQ]))

/-- A successfully parsed argument with a wildcard marker in a slot has
the corresponding discovery flag raised. -/
theorem parseLocation_dash_flags {i : Nat} {a : String} {lt : LocationType}
    {hc : Bool} {lg : List Diag} {pa : ParsedArgument}
    (h : ParseLocation i a lt hc = (lg, .ok pa)) :
    (pa.locationId = some "-" → pa.printAllLocations = true) ∧
    (pa.quantityId = some "-" → pa.printQuantities = true) := by
  unfold ParseLocation at h
  dsimp only at h
  split_ifs at h <;>
    (simp only [Prod.mk.injEq] at h
     obtain ⟨hlg, hpa⟩ := h
     first
       | exact Except.noConfusion hpa
       | (have hpa2 := Except.ok.inj hpa
          subst hlg
          subst hpa2
          constructor <;> intro hx <;>
            simp_all [applyDash_quantityId, applyDash_locationId,
              applyDash_printAll, applyDash_printQ]))

/-- Every recognized parse step is a `ParseLocation` call. -/
theorem parseStep_eq {i : Nat} {a : String} {x : List Diag × Except PyErr ParsedArgument}
    (h : parseStep i a = some x) :
    ∃ lt hc, x = ParseLocation i a lt hc := by
  unfold parseStep at h
  split at h
  · exact ⟨.reach, true, (Option.some.inj h).symm⟩
  · split at h
    · exact ⟨.node, false, (Option.some.inj h).symm⟩
    · split at h
      · exact ⟨.catchment, false, (Option.some.inj h).symm⟩
      · exact absurd h (by simp)

/-- A `stepPa` value comes from a recognized, non-raising parse step. -/
theorem stepPa_eq {i : Nat} {a : String} {pa : ParsedArgument}
    (h : stepPa i a = some pa) :
    ∃ lg, parseStep i a = some (lg, .ok pa) := by
  unfold stepPa at h
  split at h
  next lg pa2 heq =>
    exact ⟨lg, by rw [heq, Option.some.inj h]⟩
  next => exact absurd h (by simp)

/-! ### Loop lemmas for `Parse` and `Main` -/

/-- Indexing distributes over list append. -/
theorem indexedFrom_append (n : Nat) (l1 l2 : List String) :
    indexedFrom n (l1 ++ l2) = indexedFrom n l1 ++ indexedFrom (n + l1.length) l2 := by
  induction l1 generalizing n with
  | nil => simp [indexedFrom]
  | cons a l1 ih =>
    have hlen : n + (a :: l1).length = (n + 1) + l1.length := by
      simp only [List.length_cons]
      omega
    calc indexedFrom n ((a :: l1) ++ l2)
        = (n, a) :: indexedFrom (n + 1) (l1 ++ l2) := rfl
      _ = (n, a) :: (indexedFrom (n + 1) l1 ++ indexedFrom ((n + 1) + l1.length) l2) := by
            rw [ih]
      _ = indexedFrom n (a :: l1) ++ indexedFrom (n + (a :: l1).length) l2 := by
            rw [hlen]
            rfl

/-- Definitional step equation of the parse loop. -/
theorem parseArgsLoop_cons (i : Nat) (a : String) (rest : List (Nat × String)) :
    parseArgsLoop ((i, a) :: rest)
      = match parseStep i a with
        | none => ([none], true, [Diag.couldNotHandleArgument i a], none)
        | some (lg, .error e) => ([], false, lg, some e)
        | some (lg, .ok pa) =>
          if pa.printAllLocations || pa.cannotHandleArgument then
            ([some pa], false, lg, none)
          else
            (some pa :: (parseArgsLoop rest).1, (parseArgsLoop rest).2.1,
              lg ++ (parseArgsLoop rest).2.2.1, (parseArgsLoop rest).2.2.2) := rfl

/-- A prefix of clean steps (parsed, no diagnostics, no break flags)
passes straight through the parse loop: the loop result on the whole
list is the prefix output consed onto the loop result of the rest. -/
theorem parseArgsLoop_append_clean (pre rest : List (Nat × String))
    (h : ∀ ia ∈ pre, stepCleanPrefix ia.1 ia.2 = true) :
    ∃ pas0 : List (Option ParsedArgument),
      parseArgsLoop (pre ++ rest)
        = (pas0 ++ (parseArgsLoop rest).1, (parseArgsLoop rest).2.1,
            (parseArgsLoop rest).2.2.1, (parseArgsLoop rest).2.2.2) ∧
      ∀ op ∈ pas0, ∃ ia, ia ∈ pre ∧ stepPa ia.1 ia.2 = op := by
  induction pre with
  | nil => exact ⟨[], by simp, by simp⟩
  | cons ia pre ih =>
    obtain ⟨i, a⟩ := ia
    have hia := h (i, a) (by simp)
    obtain ⟨pas0, heq, hmem⟩ := ih (fun x hx => h x (by simp [hx]))
    unfold stepCleanPrefix at hia
    cases hps : parseStep i a with
    | none => rw [hps] at hia; exact absurd hia (by simp)
    | some x =>
      obtain ⟨lg, r⟩ := x
      cases r with
      | error e => rw [hps] at hia; exact absurd hia (by simp)
      | ok pa =>
        rw [hps] at hia
        simp only [Bool.and_eq_true, Bool.not_eq_eq_eq_not, Bool.not_true,
          List.isEmpty_iff] at hia
        obtain ⟨⟨hlg, hpal⟩, hch⟩ := hia
        refine ⟨some pa :: pas0, ?_, ?_⟩
        · rw [List.cons_append, parseArgsLoop_cons, hps]
          simp only [hpal, hch, hlg, Bool.or_self, Bool.false_eq_true, if_false, heq]
          simp
        · intro op hop
          rcases List.mem_cons.mp hop with rfl | hop2
          · exact ⟨(i, a), by simp, by simp [stepPa, hps]⟩
          · obtain ⟨ia2, hia2, hpa2⟩ := hmem op hop2
            exact ⟨ia2, by simp [hia2], hpa2⟩

/-- If every argument of the loop parses without raising, the loop
neither raises nor ends with the failure attribute set. -/
theorem parseArgsLoop_ok (l : List (Nat × String))
    (h : ∀ ia ∈ l, stepOk ia.1 ia.2 = true) :
    (parseArgsLoop l).2.1 = false ∧ (parseArgsLoop l).2.2.2 = none := by
  induction l with
  | nil => simp [parseArgsLoop]
  | cons ia l ih =>
    obtain ⟨i, a⟩ := ia
    have hia := h (i, a) (by simp)
    unfold stepOk at hia
    cases hps : parseStep i a with
    | none => rw [hps] at hia; exact absurd hia (by simp)
    | some x =>
      obtain ⟨lg, r⟩ := x
      cases r with
      | error e => rw [hps] at hia; exact absurd hia (by simp)
      | ok pa =>
        have hrec := ih (fun x hx => h x (by simp [hx]))
        rw [parseArgsLoop_cons, hps]
        by_cases hbr : (pa.printAllLocations || pa.cannotHandleArgument) = true
        · simp [hbr]
        · simp only [Bool.not_eq_true] at hbr
          simp [hbr, hrec.1, hrec.2]

/-- The discovery scan skips entries with neither discovery flag. -/
theorem discoveryScan_skip (rd : ResultData) (pas0 rest : List (Option ParsedArgument))
    (h : ∀ op ∈ pas0, ∃ pa, op = some pa ∧ pa.printAllLocations = false ∧
      pa.printQuantities = false) :
    discoveryScan rd (pas0 ++ rest) = discoveryScan rd rest := by
  induction pas0 with
  | nil => simp
  | cons op pas0 ih =>
    obtain ⟨pa, rfl, hpal, hpq⟩ := h op (by simp)
    have hstep : discoveryScan rd (some pa :: (pas0 ++ rest))
        = discoveryScan rd (pas0 ++ rest) := by
      simp [discoveryScan, hpal, hpq]
    rw [List.cons_append, hstep]
    exact ih (fun x hx => h x (by simp [hx]))

/-- A fired discovery scan never reports an export outcome. -/
theorem discoveryScan_not_exported (rd : ResultData)
    (pas : List (Option ParsedArgument)) (r : List Diag × MainOutcome)
    (h : discoveryScan rd pas = some r) :
    ∀ ft fn es, r.2 ≠ .exported ft fn es := by
  induction pas with
  | nil => simp [discoveryScan] at h
  | cons op pas ih =>
    cases op with
    | none =>
      simp only [discoveryScan, Option.some.injEq] at h
      subst h
      intro ft fn es
      simp
    | some p =>
      by_cases hpal : p.printAllLocations = true
      · simp only [discoveryScan, hpal, if_true, Option.some.injEq] at h
        subst h
        intro ft fn es
        simp
      · simp only [Bool.not_eq_true] at hpal
        by_cases hpq : p.printQuantities = true
        · cases hq : (PrintQuantities rd p.locationType p.locationId).2 with
          | error e =>
            simp only [discoveryScan, hpal, hpq, Bool.false_eq_true, if_false, if_true,
              hq, Option.some.injEq] at h
            subst h
            intro ft fn es
            simp
          | ok u =>
            simp only [discoveryScan, hpal, hpq, Bool.false_eq_true, if_false, if_true,
              hq, Option.some.injEq] at h
            subst h
            intro ft fn es
            simp
        · simp only [Bool.not_eq_true] at hpq
          have hstep : discoveryScan rd (some p :: pas) = discoveryScan rd pas := by
            simp [discoveryScan, hpal, hpq]
          rw [hstep] at h
          exact ih h

/-- If some member of the resolution loop resolves to the Python `None`
(or is itself a `None` parsed argument), the loop raises. -/
theorem resolveLoop_error_of_mem (rd : ResultData)
    (pas : List (Option ParsedArgument)) (op : Option ParsedArgument)
    (hmem : op ∈ pas)
    (h : ∀ p, op = some p →
      (FindQuantityInLocation rd p.locationType p.quantityId p.locationId p.chainage).2
        = none) :
    ∃ e, (resolveLoop rd pas).2 = .error e := by
  induction pas with
  | nil => simp at hmem
  | cons op2 pas ih =>
    cases op2 with
    | none => exact ⟨.attributeError, by simp [resolveLoop]⟩
    | some p2 =>
      rcases List.mem_cons.mp hmem with rfl | hmem2
      · have hres := h p2 rfl
        exact ⟨.typeError, by simp [resolveLoop, hres]⟩
      · cases hres : (FindQuantityInLocation rd p2.locationType p2.quantityId
            p2.locationId p2.chainage).2 with
        | none => exact ⟨.typeError, by simp [resolveLoop, hres]⟩
        | some es =>
          obtain ⟨e, he⟩ := ih hmem2
          exact ⟨e, by simp [resolveLoop, hres, he]⟩

/-- Resolution of a parsed argument whose ids are both Python `None`
always yields `None`: no store lookup matches a null id. -/
theorem findQuantityInLocation_none_ids (rd : ResultData) (lt : LocationType) (c : ℚ) :
    (FindQuantityInLocation rd lt none none c).2 = none := by
  cases lt with
  | reach =>
    by_cases hc : c = ALL_CHAINAGES <;>
      simp [FindQuantityInLocation, hc, FindReachQuantityAllChainages, FindReachQuantity,
        FindReaches]
  | node => simp [FindQuantityInLocation, FindNodeQuantity, FindNode]
  | catchment => simp [FindQuantityInLocation, FindCatchmentQuantity, FindCatchment]

/-- The listing `PrintQuantities` completes normally unless it is a reach discovery
with no matching reach. -/
theorem printQuantities_ok (rd : ResultData) (lt : LocationType) (loc : Option String)
    (h : lt = .reach → FindReaches rd loc ≠ []) :
    ∃ lg, PrintQuantities rd lt loc = (lg, .ok ()) := by
  cases lt with
  | reach =>
    cases hfr : FindReaches rd loc with
    | nil => exact absurd hfr (h rfl)
    | cons r rs =>
      exact ⟨r.dataItems.map (fun it => Diag.quantityIdLine it.quantityId),
        by simp [PrintQuantities, hfr]⟩
  | node =>
    cases hfn : FindNode rd loc with
    | none => exact ⟨[], by simp [PrintQuantities, hfn]⟩
    | some nd =>
      exact ⟨nd.dataItems.map (fun it => Diag.quantityIdLine it.quantityId),
        by simp [PrintQuantities, hfn]⟩
  | catchment =>
    cases hfc : FindCatchment rd loc with
    | none => exact ⟨[], by simp [PrintQuantities, hfc]⟩
    | some cc =>
      exact ⟨cc.dataItems.map (fun it => Diag.quantityIdLine it.quantityId),
        by simp [PrintQuantities, hfc]⟩

/-- Unfolding of `Main` for an argument vector with at least one
selector. -/
theorem Main_unfold (rd : ResultData) (a0 f1 f2 : String) (rest : List String)
    (hne : rest ≠ []) :
    Main rd (a0 :: f1 :: f2 :: rest)
      = (match (parseArgsLoop (indexedFrom 3 rest)).2.2.2 with
         | some e => ((parseArgsLoop (indexedFrom 3 rest)).2.2.1, .crashed e)
         | none =>
           if (parseArgsLoop (indexedFrom 3 rest)).2.1 then
             ((parseArgsLoop (indexedFrom 3 rest)).2.2.1, .cannotHandle)
           else
             ((parseArgsLoop (indexedFrom 3 rest)).2.2.1
                 ++ (runQueries rd (ParseOutputFileName f2) f2
                       (parseArgsLoop (indexedFrom 3 rest)).1).1,
               (runQueries rd (ParseOutputFileName f2) f2
                   (parseArgsLoop (indexedFrom 3 rest)).1).2)) := by
  have h0 : 0 < rest.length := List.length_pos.mpr hne
  have h1 : ¬ (a0 :: f1 :: f2 :: rest).length ≤ 1 := by
    simp only [List.length_cons]
    omega
  have h3 : ¬ (a0 :: f1 :: f2 :: rest).length ≤ 3 := by
    simp only [List.length_cons]
    omega
  rw [Main, if_neg h1, if_neg h3]
  rfl

/-- C4: a selector that fails to parse — whether no location keyword
matches or the field count is wrong — is reported with its argument
index and text, and the run never reaches an export outcome.  The
unrecognized-keyword failure stops cleanly through the failure
attribute; the wrong-field-count failure slips past that attribute (the
parse loop overwrites it with its local flag), but the failed argument
keeps null ids, resolution of them returns the Python `None`, and `Main`
faults while iterating it, still before any exporter is created.  The
prefix hypothesis pins the arguments before the failing one to clean
steps so that the parser actually reaches it. -/
theorem C4_parse_failure_never_exports (rd : ResultData) (a0 f1 f2 : String)
    (pre : List String) (a : String) (suf : List String)
    (hpre : ∀ ia ∈ indexedFrom 3 pre, stepCleanPrefix ia.1 ia.2 = true)
    (hfail : stepFails (3 + pre.length) a = true) :
    (∃ d ∈ (Main rd (a0 :: f1 :: f2 :: (pre ++ a :: suf))).1,
        diagReportsArgument d (3 + pre.length) a) ∧
    (∀ ft fn es,
      (Main rd (a0 :: f1 :: f2 :: (pre ++ a :: suf))).2 ≠ .exported ft fn es) := by
  have hne : pre ++ a :: suf ≠ [] := by simp
  have hidx : indexedFrom 3 (pre ++ a :: suf)
      = indexedFrom 3 pre
          ++ ((3 + pre.length, a) :: indexedFrom (3 + pre.length + 1) suf) := by
    rw [indexedFrom_append]
    rfl
  obtain ⟨pas0, heq, hmem⟩ :=
    parseArgsLoop_append_clean (indexedFrom 3 pre)
      ((3 + pre.length, a) :: indexedFrom (3 + pre.length + 1) suf) hpre
  unfold stepFails at hfail
  cases hps : parseStep (3 + pre.length) a with
  | none =>
    have hR : parseArgsLoop ((3 + pre.length, a) :: indexedFrom (3 + pre.length + 1) suf)
        = ([none], true, [Diag.couldNotHandleArgument (3 + pre.length) a], none) := by
      rw [parseArgsLoop_cons, hps]
    rw [hR] at heq
    have hmain : Main rd (a0 :: f1 :: f2 :: (pre ++ a :: suf))
        = ([Diag.couldNotHandleArgument (3 + pre.length) a], .cannotHandle) := by
      rw [Main_unfold rd a0 f1 f2 _ hne, hidx, heq]
      rfl
    rw [hmain]
    refine ⟨⟨Diag.couldNotHandleArgument (3 + pre.length) a, by simp, Or.inl rfl⟩, ?_⟩
    intro ft fn es
    simp
  | some x =>
    obtain ⟨lg, r⟩ := x
    cases r with
    | error e => rw [hps] at hfail; exact absurd hfail (by simp)
    | ok pa =>
      rw [hps] at hfail
      simp only [] at hfail
      obtain ⟨lt, hc, hx⟩ := parseStep_eq hps
      obtain ⟨hlg, hqid, hlid, hpal, hpq⟩ := parseLocation_cannotHandle hx.symm hfail
      have hR : parseArgsLoop ((3 + pre.length, a) :: indexedFrom (3 + pre.length + 1) suf)
          = ([some pa], false, lg, none) := by
        rw [parseArgsLoop_cons, hps]
        simp [hfail]
      rw [hR] at heq
      have hmain : Main rd (a0 :: f1 :: f2 :: (pre ++ a :: suf))
          = (lg ++ (runQueries rd (ParseOutputFileName f2) f2 (pas0 ++ [some pa])).1,
              (runQueries rd (ParseOutputFileName f2) f2 (pas0 ++ [some pa])).2) := by
        rw [Main_unfold rd a0 f1 f2 _ hne, hidx, heq]
        rfl
      rw [hmain]
      constructor
      · refine ⟨Diag.argumentPartsError lt (if hc then "3 or 4" else "3")
          (3 + pre.length) a, ?_, Or.inr ⟨lt, _, rfl⟩⟩
        rw [hlg]
        simp
      · intro ft fn es
        show (runQueries rd (ParseOutputFileName f2) f2 (pas0 ++ [some pa])).2
            ≠ MainOutcome.exported ft fn es
        cases hds : discoveryScan rd (pas0 ++ [some pa]) with
        | some r0 =>
          have hq : (runQueries rd (ParseOutputFileName f2) f2 (pas0 ++ [some pa])).2
              = r0.2 := by
            simp [runQueries, hds]
          rw [hq]
          exact discoveryScan_not_exported rd _ r0 hds ft fn es
        | none =>
          obtain ⟨e, he⟩ := resolveLoop_error_of_mem rd (pas0 ++ [some pa]) (some pa)
            (by simp)
            (by
              intro p hp
              obtain rfl := Option.some.inj hp
              rw [hqid, hlid]
              exact findQuantityInLocation_none_ids rd pa.locationType pa.chainage)
          have hq : (runQueries rd (ParseOutputFileName f2) f2 (pas0 ++ [some pa])).2
              = .crashed e := by
            simp [runQueries, hds, he]
          rw [hq]
          simp

/-- C4 witness: on a concrete store, the unrecognized selector
`foo:bar` at index 3 is reported with its index and text and the run
does not export. -/
theorem C4_parse_failure_witness :
    (∃ d ∈ (Main rdC1 ("p" :: "r" :: "o.txt" :: ([] ++ "foo:bar" :: []))).1,
        diagReportsArgument d (3 + List.length ([] : List String)) "foo:bar") ∧
    (∀ ft fn es,
      (Main rdC1 ("p" :: "r" :: "o.txt" :: ([] ++ "foo:bar" :: []))).2
        ≠ .exported ft fn es) :=
  C4_parse_failure_never_exports rdC1 "p" "r" "o.txt" [] "foo:bar" []
    (by decide) (by decide)

/-- C6 counterexample: a reach quantity-discovery naming a location id
that matches no reach does not perform the listing the claim promises:
the script indexes the empty search result, raising an index error after
the header, so the discovery action is not carried out (nothing is
exported either). -/
theorem C6_counterexample_reach_discovery_crash :
    Main rdEmpty ["p", "r", "o.txt", "reach:-:X"]
      = ([Diag.availableQuantitiesHeader .reach (some "X")], .crashed .indexError) := by
  decide

/-- A plain-query step is in particular a clean prefix step. -/
theorem stepPlainQuery_clean {i : Nat} {a : String}
    (h : stepPlainQuery i a = true) : stepCleanPrefix i a = true := by
  unfold stepPlainQuery at h
  unfold stepCleanPrefix
  cases hps : parseStep i a with
  | none => rw [hps] at h; exact absurd h (by simp)
  | some x =>
    obtain ⟨lg, r⟩ := x
    cases r with
    | error e => rw [hps] at h; exact absurd h (by simp)
    | ok pa =>
      rw [hps] at h
      simp only [Bool.and_eq_true] at h ⊢
      exact ⟨⟨h.1.1.1, h.1.1.2⟩, h.2⟩

/-- A plain-query step produces a parsed argument with no discovery
flags. -/
theorem stepPlainQuery_stepPa {i : Nat} {a : String}
    (h : stepPlainQuery i a = true) :
    ∃ pa2, stepPa i a = some pa2 ∧ pa2.printAllLocations = false ∧
      pa2.printQuantities = false := by
  unfold stepPlainQuery at h
  unfold stepPa
  cases hps : parseStep i a with
  | none => rw [hps] at h; exact absurd h (by simp)
  | some x =>
    obtain ⟨lg, r⟩ := x
    cases r with
    | error e => rw [hps] at h; exact absurd h (by simp)
    | ok pa =>
      rw [hps] at h
      simp only [Bool.and_eq_true, Bool.not_eq_eq_eq_not, Bool.not_true] at h
      exact ⟨pa, rfl, h.1.1.2, h.1.2⟩

/-- C6: when the parser reaches an argument carrying the wildcard
marker in its quantity or location slot (all earlier arguments being
plain queries and all later ones parseable), `Main` performs the
corresponding discovery action — listing all locations of the type or
the quantities at the location — and never reaches an export outcome,
regardless of how well-formed the later arguments are.  The last
hypothesis excludes the reach quantity-discovery corner in which the
store has no matching reach, where the script raises instead of
listing. -/
theorem C6_wildcard_discovery_no_export (rd : ResultData) (a0 f1 f2 : String)
    (pre : List String) (a : String) (suf : List String) (pa : ParsedArgument)
    (hpre : ∀ ia ∈ indexedFrom 3 pre, stepPlainQuery ia.1 ia.2 = true)
    (hpa : stepPa (3 + pre.length) a = some pa)
    (hwild : pa.quantityId = some "-" ∨ pa.locationId = some "-")
    (hsuf : ∀ ia ∈ indexedFrom (3 + pre.length + 1) suf, stepOk ia.1 ia.2 = true)
    (hreach : pa.printQuantities = true → pa.printAllLocations = false →
      pa.locationType = .reach → FindReaches rd pa.locationId ≠ []) :
    ((Main rd (a0 :: f1 :: f2 :: (pre ++ a :: suf))).2
        = .printedAllLocations pa.locationType ∨
      (Main rd (a0 :: f1 :: f2 :: (pre ++ a :: suf))).2
        = .printedQuantities pa.locationType pa.locationId) ∧
    (∀ ft fn es,
      (Main rd (a0 :: f1 :: f2 :: (pre ++ a :: suf))).2 ≠ .exported ft fn es) := by
  have hne : pre ++ a :: suf ≠ [] := by simp
  have hidx : indexedFrom 3 (pre ++ a :: suf)
      = indexedFrom 3 pre
          ++ ((3 + pre.length, a) :: indexedFrom (3 + pre.length + 1) suf) := by
    rw [indexedFrom_append]
    rfl
  obtain ⟨lg, hps⟩ := stepPa_eq hpa
  obtain ⟨lt0, hc0, hx⟩ := parseStep_eq hps
  have hdash := parseLocation_dash_flags hx.symm
  obtain ⟨pas0, heq, hmem⟩ :=
    parseArgsLoop_append_clean (indexedFrom 3 pre)
      ((3 + pre.length, a) :: indexedFrom (3 + pre.length + 1) suf)
      (fun ia hia => stepPlainQuery_clean (hpre ia hia))
  have hpas0flags : ∀ op ∈ pas0, ∃ pa2, op = some pa2 ∧
      pa2.printAllLocations = false ∧ pa2.printQuantities = false := by
    intro op hop
    obtain ⟨ia, hia, hstep⟩ := hmem op hop
    obtain ⟨pa2, hpa2, hf1, hf2⟩ := stepPlainQuery_stepPa (hpre ia hia)
    exact ⟨pa2, by rw [← hstep, hpa2], hf1, hf2⟩
  by_cases hpal : pa.printAllLocations = true
  · have hR : parseArgsLoop ((3 + pre.length, a) :: indexedFrom (3 + pre.length + 1) suf)
        = ([some pa], false, lg, none) := by
      rw [parseArgsLoop_cons, hps]
      simp [hpal]
    rw [hR] at heq
    have hout : (Main rd (a0 :: f1 :: f2 :: (pre ++ a :: suf))).2
        = (runQueries rd (ParseOutputFileName f2) f2 (pas0 ++ [some pa])).2 := by
      rw [Main_unfold rd a0 f1 f2 _ hne, hidx, heq]
      rfl
    have hq2 : (runQueries rd (ParseOutputFileName f2) f2 (pas0 ++ [some pa])).2
        = .printedAllLocations pa.locationType := by
      unfold runQueries
      rw [discoveryScan_skip rd pas0 _ hpas0flags]
      simp [discoveryScan, hpal]
    rw [hout, hq2]
    refine ⟨Or.inl rfl, ?_⟩
    intro ft fn es
    simp
  · simp only [Bool.not_eq_true] at hpal
    have hq : pa.quantityId = some "-" := by
      rcases hwild with hq | hl
      · exact hq
      · exact absurd (hdash.1 hl) (by simp [hpal])
    have hpq : pa.printQuantities = true := hdash.2 hq
    have hch : pa.cannotHandleArgument = false := by
      by_contra hch
      simp only [Bool.not_eq_false] at hch
      obtain ⟨_, hqid, _, _, _⟩ := parseLocation_cannotHandle hx.symm hch
      rw [hqid] at hq
      exact Option.noConfusion hq
    obtain ⟨hfl, herr⟩ := parseArgsLoop_ok (indexedFrom (3 + pre.length + 1) suf) hsuf
    have hR : parseArgsLoop ((3 + pre.length, a) :: indexedFrom (3 + pre.length + 1) suf)
        = (some pa :: (parseArgsLoop (indexedFrom (3 + pre.length + 1) suf)).1,
            (parseArgsLoop (indexedFrom (3 + pre.length + 1) suf)).2.1,
            lg ++ (parseArgsLoop (indexedFrom (3 + pre.length + 1) suf)).2.2.1,
            (parseArgsLoop (indexedFrom (3 + pre.length + 1) suf)).2.2.2) := by
      rw [parseArgsLoop_cons, hps]
      simp [hpal, hch]
    rw [hR] at heq
    have hout : (Main rd (a0 :: f1 :: f2 :: (pre ++ a :: suf))).2
        = (runQueries rd (ParseOutputFileName f2) f2
            (pas0 ++ some pa ::
              (parseArgsLoop (indexedFrom (3 + pre.length + 1) suf)).1)).2 := by
      rw [Main_unfold rd a0 f1 f2 _ hne, hidx, heq]
      simp [herr, hfl]
    obtain ⟨lg2, hpq_eq⟩ := printQuantities_ok rd pa.locationType pa.locationId
      (fun hlt => hreach hpq hpal hlt)
    have hq2 : (runQueries rd (ParseOutputFileName f2) f2
        (pas0 ++ some pa ::
          (parseArgsLoop (indexedFrom (3 + pre.length + 1) suf)).1)).2
        = .printedQuantities pa.locationType pa.locationId := by
      unfold runQueries
      rw [discoveryScan_skip rd pas0 _ hpas0flags]
      simp [discoveryScan, hpal, hpq, hpq_eq]
    rw [hout, hq2]
    refine ⟨Or.inr rfl, ?_⟩
    intro ft fn es
    simp

/-- C6 witness: `node:-:N1` followed by a well-formed query prints the
quantities available at node `N1` and the run does not export. -/
theorem C6_wildcard_discovery_witness :
    ((Main rdC6 ("p" :: "r" :: "o.txt" :: ([] ++ "node:-:N1" :: ["node:WaterLevel:N2"]))).2
        = .printedAllLocations paC6.locationType ∨
      (Main rdC6 ("p" :: "r" :: "o.txt" :: ([] ++ "node:-:N1" :: ["node:WaterLevel:N2"]))).2
        = .printedQuantities paC6.locationType paC6.locationId) ∧
    (∀ ft fn es,
      (Main rdC6 ("p" :: "r" :: "o.txt" :: ([] ++ "node:-:N1" :: ["node:WaterLevel:N2"]))).2
        ≠ .exported ft fn es) :=
  C6_wildcard_discovery_no_export rdC6 "p" "r" "o.txt" [] "node:-:N1"
    ["node:WaterLevel:N2"] paC6 (by decide) (by decide) (Or.inl (by decide))
    (by decide) (by decide)

end ResultDataExtract
